import Mathlib

/-!
# PTM-platform — Order Pipeline Progress Streaming: timeline reconciliation

A shallow embedding of the client-side Timeline Reconciler of the PTM
analysis platform (frontend/src/pages/OrderDetail.tsx and
frontend/src/hooks/useSSE.ts), together with proofs about its sub-progress
parser, its history/live-stream merge, and its progress-update collapse.

Modelling conventions:
* Timestamps are naturals (milliseconds); `new Date(s).getTime()` on a
  stored `created_at` is abstracted to the timestamp itself.
* JavaScript numbers produced by `parseInt` on digit strings and by
  `Math.round` on non-negative values are modelled as `Nat`;
  `Math.round x = ⌊x + 1/2⌋` is realised on the fraction `100*done/total`
  by the integer formula `(200*done + total) / (2*total)`.
* `progress_pct` fields (floats in the source) are modelled as `ℚ`.
-/

namespace PTM

/-! ## Character classes of the sub-progress regular expression

`parseSubProgress` matches `/^(.+?):\s*([\d,]+)\s*\/\s*([\d,]+)$/`.
`\d` is `[0-9]`; `\s` is the ECMAScript whitespace class; `.` matches any
character except a line terminator. -/

/-- The ECMAScript `\s` class (WhiteSpace ∪ LineTerminator), as matched by
`\s` in the sub-progress regular expression. -/
def jsSpaceChars : List Char :=
  [' ', '\t', '\n', '\x0b', '\x0c', '\r',
   ' ', ' ', ' ', ' ', ' ', ' ', ' ',
   ' ', ' ', ' ', ' ', ' ', ' ',
   ' ', ' ', ' ', ' ', '　', '﻿']

/-- Membership in the ECMAScript `\s` class. -/
def isJsSpace (c : Char) : Bool := jsSpaceChars.contains c

/-- ECMAScript line terminators: the characters `.` does NOT match. -/
def isLineTerminator (c : Char) : Bool :=
  c = '\n' ∨ c = '\r' ∨ c = ' ' ∨ c = ' '

/-- The character class `[\d,]` of the two counter groups. -/
def isDigitOrComma (c : Char) : Bool := c.isDigit || c = ','

/-- `String.prototype.trim`: strip leading and trailing JS whitespace
(applied to the captured label by `m[1].trim()`). -/
def trimJs (l : List Char) : List Char :=
  ((l.dropWhile isJsSpace).reverse.dropWhile isJsSpace).reverse

/-! ## The sub-progress parser (`parseSubProgress`, OrderDetail.tsx)

```ts
function parseSubProgress(message: string): SubProgress | null {
  const m = message.match(/^(.+?):\s*([\d,]+)\s*\/\s*([\d,]+)$/);
  if (!m) return null;
  const done = parseInt(m[2].replace(/,/g, ""));
  const total = parseInt(m[3].replace(/,/g, ""));
  if (isNaN(done) || isNaN(total) || total === 0) return null;
  return { label: m[1].trim(), done, total,
           pct: Math.round((done / total) * 100) };
}
```
-/

/-- Match the tail `\s*([\d,]+)\s*\/\s*([\d,]+)$` of the counter pattern
against the characters after the label's colon, returning the two captured
groups. The greedy `\s*` and `[\d,]+` are deterministic here because the
classes `\s`, `[\d,]` and the literal `/` are pairwise disjoint. -/
def matchAfterColon (r : List Char) : Option (List Char × List Char) :=
  let r1 := r.dropWhile isJsSpace
  let g2 := r1.takeWhile isDigitOrComma
  let r2 := r1.dropWhile isDigitOrComma
  if g2.isEmpty then none
  else
    match r2.dropWhile isJsSpace with
    | '/' :: r4 =>
      let r5 := r4.dropWhile isJsSpace
      let g3 := r5.takeWhile isDigitOrComma
      let r6 := r5.dropWhile isDigitOrComma
      if g3.isEmpty || !r6.isEmpty then none else some (g2, g3)
    | _ => none

/-- Backtracking match of `^(.+?):` + tail: the lazy `(.+?)` takes the
shortest non-empty prefix of `.`-matchable characters such that the next
character is `:` and the remainder matches `matchAfterColon`. `acc` holds
the label candidate read so far, reversed. Returns (label, group2, group3). -/
def matchCounter (acc : List Char) : List Char → Option (List Char × List Char × List Char)
  | [] => none
  | c :: rest =>
    if c = ':' ∧ acc ≠ [] then
      match matchAfterColon rest with
      | some (g2, g3) => some (acc.reverse, g2, g3)
      | none =>
        if isLineTerminator c then none else matchCounter (c :: acc) rest
    else
      if isLineTerminator c then none else matchCounter (c :: acc) rest

/-- `parseInt` on a (comma-stripped) counter group: the group's characters
are digits and commas, so after `replace(/,/g,"")` the string is all digits;
`parseInt("")` is `NaN`, modelled as `none`. -/
def parseIntDec (l : List Char) : Option Nat :=
  if l.isEmpty then none
  else some (l.foldl (fun n c => 10 * n + (c.toNat - '0'.toNat)) 0)

/-- The structured sub-progress record derived from a counter message. -/
structure SubProgress where
  label : String
  done : Nat
  total : Nat
  pct : Nat
  deriving DecidableEq, Repr

/-- `parseSubProgress` from OrderDetail.tsx: recognise the counter pattern
`<label>: <done>/<total>` and derive `(label, done, total, pct)` with
`pct = Math.round (100 * done / total)`; `NaN` groups and `total = 0`
yield `none`. -/
def parseSubProgress (message : String) : Option SubProgress :=
  match matchCounter [] message.data with
  | none => none
  | some (lbl, g2, g3) =>
    match parseIntDec (g2.filter (fun c => c ≠ ',')),
          parseIntDec (g3.filter (fun c => c ≠ ',')) with
    | some done, some total =>
      if total = 0 then none
      else some { label := String.mk (trimJs lbl), done := done, total := total,
                  pct := (200 * done + total) / (2 * total) }
    | _, _ => none

/-! ## Timeline entries and the history/live merge (`TerminalPanel`) -/

/-- A persisted log row (`OrderLog` in lib/types, rows of
`GET /orders/:id/logs`, ordered by `created_at`). -/
structure OrderLog where
  id : Nat
  created_at : Nat
  stage : String
  step : String
  status : String
  progress_pct : Option ℚ
  message : Option String
  deriving DecidableEq, Repr

/-- A live-stream progress event (`ProgressEvent` in lib/types); `_ts` is
the arrival timestamp stamped by `useOrderProgress` (`Date.now()`), `0`
standing for the absent/falsy value. -/
structure ProgressEvent where
  stage : String
  step : String
  status : String
  progress_pct : Option ℚ
  message : Option String
  ts : Nat
  deriving DecidableEq, Repr

/-- A rendered timeline entry (`LogEntry` in OrderDetail.tsx). -/
structure LogEntry where
  key : String
  ts : Nat
  stage : String
  step : String
  status : String
  pct : Option ℚ
  message : String
  deriving DecidableEq, Repr

/-- `toLogEntry`: a persisted log row as a timeline entry. -/
def toLogEntry (log : OrderLog) : LogEntry :=
  { key := "db-" ++ toString log.id
    ts := log.created_at
    stage := log.stage
    step := log.step
    status := log.status
    pct := log.progress_pct
    message := log.message.getD "" }

/-- `sseToLogEntry`: a live event as a timeline entry (`e._ts || Date.now()`
with `now` the current clock reading). -/
def sseToLogEntry (now : Nat) (e : ProgressEvent) (idx : Nat) : LogEntry :=
  { key := "sse-" ++ toString idx
    ts := if e.ts = 0 then now else e.ts
    stage := e.stage
    step := e.step
    status := e.status
    pct := e.progress_pct
    message := e.message.getD "" }

/-- `lastDbTime` in `allEntries`: the timestamp of the last persisted row,
`0` when there is none (the spec's `T_cutoff`). -/
def tCutoff (logs : List OrderLog) : Nat :=
  match logs.getLast? with
  | some lg => lg.created_at
  | none => 0

/-- `allEntries` in `TerminalPanel`: persisted entries in stored order,
followed by the live entries whose timestamp is strictly greater than
`lastDbTime`, in arrival order. -/
def allEntries (now : Nat) (logs : List OrderLog) (events : List ProgressEvent) :
    List LogEntry :=
  let dbEntries := logs.map toLogEntry
  let lastDbTime := tCutoff logs
  let sseEntries :=
    ((events.enum.map (fun p => sseToLogEntry now p.2 p.1)).filter
      (fun e => lastDbTime < e.ts))
  dbEntries ++ sseEntries

/-! ## The collapse step (`filteredEntries`) -/

/-- `isProgressUpdate`: an entry whose message parses as a counter pattern. -/
def isProgressUpdate (entry : LogEntry) : Bool :=
  (parseSubProgress entry.message).isSome

/-- The drop test of the `filteredEntries` loop: the current entry is a
progress update and the immediately following entry is a progress update
for the same step. -/
def shouldDrop (entry next : LogEntry) : Bool :=
  isProgressUpdate entry && next.step == entry.step && isProgressUpdate next

/-- `filteredEntries` as a recursion over the entry list: drop an entry when
`shouldDrop` holds of it and its successor, keep it otherwise; the last
entry has no successor and is always kept. -/
def collapseEntries : List LogEntry → List LogEntry
  | [] => []
  | [e] => [e]
  | e :: f :: t =>
    if shouldDrop e f then collapseEntries (f :: t)
    else e :: collapseEntries (f :: t)

/-- Pair each element with its successor, if any. -/
def withNext : List LogEntry → List (LogEntry × Option LogEntry)
  | [] => []
  | [e] => [(e, none)]
  | e :: f :: t => (e, some f) :: withNext (f :: t)

/-- Keep test on an (entry, successor) pair. -/
def keepPair (p : LogEntry × Option LogEntry) : Bool :=
  match p.2 with
  | some f => !(shouldDrop p.1 f)
  | none => true

/-- The spec's collapse rule, read positionally: keep exactly those entries
for which the drop test against the immediate successor fails. -/
def specCollapse (l : List LogEntry) : List LogEntry :=
  ((withNext l).filter keepPair).map Prod.fst

/-! ## The live-stream client (`useOrderProgress`, hooks/useSSE.ts)

```ts
es.onerror = () => {
  setConnected(false);
  es.close();
  setTimeout(connect, 3000);
};
```
The hook is modelled as a small state machine: `openOrder` is the order id
of the open `EventSource` (if any), `connected` the `connected` state flag,
and `pendingTimers` the queue of `setTimeout` callbacks, each recorded as
(delay in ms, order id captured by the `connect` closure). -/

/-- The literal delay passed to `setTimeout` in `es.onerror`. -/
def reconnectDelayMs : Nat := 3000

/-- The state of one `useOrderProgress` client. -/
structure SSEClientState where
  connected : Bool
  openOrder : Option Nat
  pendingTimers : List (Nat × Nat)
  deriving DecidableEq, Repr

/-- `connect`: open an `EventSource` for the order (`if (!orderId) return`;
the id `0` models the falsy `null`). -/
def connect (orderId : Nat) (s : SSEClientState) : SSEClientState :=
  if orderId = 0 then s else { s with openOrder := some orderId }

/-- `es.onopen`: mark the client connected. -/
def onOpen (s : SSEClientState) : SSEClientState :=
  { s with connected := true }

/-- `es.onerror`: mark disconnected, close the source, and schedule
`connect` for the same order after `reconnectDelayMs`. -/
def onError (orderId : Nat) (s : SSEClientState) : SSEClientState :=
  { connected := false
    openOrder := none
    pendingTimers := s.pendingTimers ++ [(reconnectDelayMs, orderId)] }

/-- Fire the oldest pending timer: run the captured `connect` closure. -/
def fireTimer (s : SSEClientState) : SSEClientState :=
  match s.pendingTimers with
  | [] => s
  | (_, oid) :: rest => connect oid { s with pendingTimers := rest }

/-- The reconnect delay of the client as a function of an externally
configured backoff interval: the hook reads no configuration, so the
configured value does not flow into the delay. -/
def clientReconnectDelay (_cfg : Nat) : Nat := reconnectDelayMs

/-! ## Stage bands and the Order State Machine

`STAGES` (OrderDetail.tsx) assigns each pipeline stage its band of the
overall 0–100 progress scale; the icon component of each row is UI-only
and omitted. -/

/-- One row of the `STAGES` table: key, label, and band `[lo, hi]`. -/
structure StageInfo where
  key : String
  label : String
  lo : ℚ
  hi : ℚ
  deriving DecidableEq, Repr

/-- The `STAGES` table from OrderDetail.tsx. -/
def STAGES : List StageInfo :=
  [{ key := "preprocessing", label := "Preprocessing", lo := 0, hi := 33 },
   { key := "rag_enrichment", label := "RAG Enrichment", lo := 33, hi := 66 },
   { key := "report_generation", label := "Report Generation", lo := 66, hi := 100 }]

/-- The band of a stage key, looked up in `STAGES`. -/
def stageRange (k : String) : Option (ℚ × ℚ) :=
  (STAGES.find? (fun s => s.key == k)).map (fun s => (s.lo, s.hi))

/-- The key of the stage after `k` in the `STAGES` order. -/
def nextKeyIn : List StageInfo → String → Option String
  | [], _ => none
  | [_], _ => none
  | s :: s2 :: t, k => if s.key == k then some s2.key else nextKeyIn (s2 :: t) k

/-- The successor stage of a stage key. -/
def nextStageKey (k : String) : Option String := nextKeyIn STAGES k

/-- Modelled from the spec: the Order fields governed by the band
invariant (`current_stage`, `progress_pct`); the Order State Machine that
owns them is backend code not present under src/, so its two progress
mutations are modelled from §4.1–§4.2 of the spec, over the bands of the
frontend `STAGES` table. -/
structure OrderSt where
  current_stage : String
  progress_pct : ℚ
  deriving DecidableEq, Repr

/-- Map a stage-local progress `p ∈ [0,100]` onto the stage's band
`[lo, hi]` (spec §4.2: "a Stage Runner maps its own 0–100 internal
progress onto its band before it is visible on the Order"). -/
def mapToBand (lo hi p : ℚ) : ℚ := lo + p * (hi - lo) / 100

/-- Modelled from the spec: a progress update within the current stage —
the stage-local progress `p` is mapped onto the active stage's band and
cached on the Order. -/
def applyProgress (o : OrderSt) (p : ℚ) : OrderSt :=
  match stageRange o.current_stage with
  | none => o
  | some r => { o with progress_pct := mapToBand r.1 r.2 p }

/-- Modelled from the spec: the `advance` transition — move to the next
stage and reset `progress_pct` to the next stage's band lower bound. -/
def advanceOrder (o : OrderSt) : OrderSt :=
  match nextStageKey o.current_stage with
  | none => o
  | some k =>
    match stageRange k with
    | none => o
    | some r => { current_stage := k, progress_pct := r.1 }

/-! ## Lemmas about the collapse step -/

/-- The code's index loop and the positional reading of the collapse rule
agree: an entry is kept exactly when the drop test against its immediate
successor fails. -/
theorem collapse_eq_specCollapse : ∀ l, collapseEntries l = specCollapse l
  | [] => rfl
  | [e] => rfl
  | e :: f :: t => by
    have ih := collapse_eq_specCollapse (f :: t)
    unfold collapseEntries specCollapse withNext
    rw [List.filter_cons]
    by_cases h : shouldDrop e f
    · simp [keepPair, h, ih, specCollapse]
    · simp [keepPair, h, ih, specCollapse]

/-- Collapsing a non-empty list yields a non-empty list. -/
theorem collapse_ne_nil : ∀ e t, collapseEntries (e :: t) ≠ []
  | _, [] => by simp [collapseEntries]
  | e, f :: t => by
    unfold collapseEntries
    by_cases h : shouldDrop e f
    · simpa [h] using collapse_ne_nil f t
    · simp [h]

/-- The head of a collapsed non-empty list is either the original head, or
a progress update for the same step as the (dropped, progress-update)
original head. -/
theorem collapse_head : ∀ f t, ∃ h s, collapseEntries (f :: t) = h :: s ∧
    (h = f ∨ (isProgressUpdate f = true ∧ isProgressUpdate h = true ∧
      h.step = f.step))
  | f, [] => ⟨f, [], rfl, Or.inl rfl⟩
  | f, g :: t => by
    by_cases hd : shouldDrop f g
    · obtain ⟨h, s, heq, hcase⟩ := collapse_head g t
      refine ⟨h, s, ?_, ?_⟩
      · unfold collapseEntries
        rw [if_pos hd, heq]
      · have hparts : isProgressUpdate f = true ∧ g.step = f.step ∧
            isProgressUpdate g = true := by
          simpa [shouldDrop, Bool.and_eq_true, beq_iff_eq, and_assoc] using hd
        rcases hcase with rfl | ⟨_, hph, hsh⟩
        · exact Or.inr ⟨hparts.1, hparts.2.2, hparts.2.1⟩
        · exact Or.inr ⟨hparts.1, hph, hsh.trans hparts.2.1⟩
    · refine ⟨f, collapseEntries (g :: t), ?_, Or.inl rfl⟩
      simp only [collapseEntries]
      rw [if_neg hd]

/-- A collapsed list never has two adjacent entries related by the drop
test: no progress update is immediately followed by a progress update for
the same step. -/
theorem collapse_chain :
    ∀ l, List.Chain' (fun a b => shouldDrop a b = false) (collapseEntries l)
  | [] => List.chain'_nil
  | [e] => by simp [collapseEntries]
  | e :: f :: t => by
    have ih := collapse_chain (f :: t)
    unfold collapseEntries
    by_cases hd : shouldDrop e f
    · rwa [if_pos hd]
    · rw [if_neg hd]
      obtain ⟨h, s, hs, hcase⟩ := collapse_head f t
      rw [hs] at ih ⊢
      refine List.Chain'.cons ?_ ih
      rcases hcase with rfl | ⟨hpf, hph, hstep⟩
      · exact Bool.eq_false_iff.mpr hd
      · refine Bool.eq_false_iff.mpr (fun hdrop => hd ?_)
        have hp : isProgressUpdate e = true ∧ h.step = e.step ∧
            isProgressUpdate h = true := by
          simpa [shouldDrop, Bool.and_eq_true, beq_iff_eq, and_assoc] using hdrop
        simp [shouldDrop, Bool.and_eq_true, beq_iff_eq, hp.1, hpf,
          hstep ▸ hp.2.1]

/-- A list in which no entry is drop-related to its successor collapses to
itself. -/
theorem collapse_of_chain :
    ∀ l, List.Chain' (fun a b => shouldDrop a b = false) l → collapseEntries l = l
  | [], _ => rfl
  | [_], _ => rfl
  | e :: f :: t, h => by
    have h1 : shouldDrop e f = false := (List.chain'_cons.mp h).1
    have h2 := (List.chain'_cons.mp h).2
    unfold collapseEntries
    rw [if_neg (by simp [h1]), collapse_of_chain (f :: t) h2]

/-- Collapse is idempotent. -/
theorem collapse_idem (l : List LogEntry) :
    collapseEntries (collapseEntries l) = collapseEntries l :=
  collapse_of_chain _ (collapse_chain l)

/-- Collapse preserves the last entry. -/
theorem collapse_getLast? : ∀ l : List LogEntry,
    (collapseEntries l).getLast? = l.getLast?
  | [] => rfl
  | [_] => rfl
  | e :: f :: t => by
    have ih := collapse_getLast? (f :: t)
    unfold collapseEntries
    by_cases hd : shouldDrop e f
    · rw [if_pos hd, ih, List.getLast?_cons_cons]
    · rw [if_neg hd]
      obtain ⟨h, s, hs, _⟩ := collapse_head f t
      rw [hs] at ih ⊢
      rw [List.getLast?_cons_cons, ih, List.getLast?_cons_cons]

/-- A non-progress-update (milestone) entry is never dropped by the
collapse. -/
theorem milestone_mem_collapse : ∀ l (e : LogEntry), e ∈ l →
    isProgressUpdate e = false → e ∈ collapseEntries l
  | [], _, hm, _ => absurd hm (List.not_mem_nil _)
  | [f], e, hm, _ => by simpa [collapseEntries] using hm
  | f :: g :: t, e, hm, hp => by
    unfold collapseEntries
    by_cases hd : shouldDrop f g
    · rw [if_pos hd]
      rcases List.mem_cons.mp hm with rfl | hm'
      · have : isProgressUpdate e = true := by
          have := hd
          simp [shouldDrop, Bool.and_eq_true] at this
          exact this.1.1
        simp [this] at hp
      · exact milestone_mem_collapse (g :: t) e hm' hp
    · rw [if_neg hd]
      rcases List.mem_cons.mp hm with rfl | hm'
      · exact List.mem_cons_self _ _
      · exact List.mem_cons_of_mem _ (milestone_mem_collapse (g :: t) e hm' hp)

/-- Relabelling entry identity and timing (any map that preserves `step`
and `message`) commutes with the collapse: the kept positions depend only
on the entries' steps and messages. -/
theorem collapse_map (φ : LogEntry → LogEntry)
    (hstep : ∀ e, (φ e).step = e.step)
    (hmsg : ∀ e, (φ e).message = e.message) :
    ∀ l, collapseEntries (l.map φ) = (collapseEntries l).map φ
  | [] => rfl
  | [e] => rfl
  | e :: f :: t => by
    have ih := collapse_map φ hstep hmsg (f :: t)
    have hdrop : shouldDrop (φ e) (φ f) = shouldDrop e f := by
      simp [shouldDrop, isProgressUpdate, hstep, hmsg]
    show collapseEntries (φ e :: φ f :: t.map φ) = _
    unfold collapseEntries
    by_cases hd : shouldDrop e f
    · rw [if_pos (hdrop.trans (by rw [hd]) : _), if_pos hd]
      simpa using ih
    · rw [if_neg (by rw [hdrop]; simpa using hd), if_neg hd]
      simpa using ih

/-! ## Concrete timeline entries used in scenario statements -/

/-- A timeline entry of the RAG-enrichment stage carrying a given message
on step `enrich`. -/
def entryOn (msg : String) : LogEntry :=
  { key := "", ts := 0, stage := "rag_enrichment", step := "enrich",
    status := "running", pct := none, message := msg }

/-! ## Claim theorems -/

/-- C3: the sub-progress parser maps `"UniProt: 500/6,095"` to
`(label "UniProt", done 500, total 6095, pct 8)` and `"Done"` to no record;
every recognised message yields a record whose `pct` is the half-up
rounding of `100 * done / total` (characterised by the bracketing
`2*total*pct ≤ 200*done + total < 2*total*(pct + 1)`), with `total > 0`. -/
theorem c3_subprogress_roundtrip :
    parseSubProgress ("UniProt: 500/6,095") =
      some { label := "UniProt", done := 500, total := 6095, pct := 8 } ∧
    parseSubProgress ("Done") = none ∧
    ∀ msg r, parseSubProgress msg = some r →
      0 < r.total ∧
      2 * r.total * r.pct ≤ 200 * r.done + r.total ∧
      200 * r.done + r.total < 2 * r.total * (r.pct + 1) := by
  refine ⟨by decide, by decide, ?_⟩
  intro msg r h
  unfold parseSubProgress at h
  rcases hmc : matchCounter [] msg.data with _ | ⟨lbl, g2, g3⟩
  · rw [hmc] at h; exact absurd h (by simp)
  · rw [hmc] at h
    dsimp only at h
    rcases hd2 : parseIntDec (g2.filter (fun c => c ≠ ',')) with _ | done
    · rw [hd2] at h; exact absurd h (by simp)
    rcases hd3 : parseIntDec (g3.filter (fun c => c ≠ ',')) with _ | total
    · rw [hd2, hd3] at h; dsimp only at h; exact absurd h (by simp)
    rw [hd2, hd3] at h
    dsimp only at h
    by_cases ht : total = 0
    · rw [if_pos ht] at h; exact absurd h (by simp)
    · rw [if_neg ht] at h
      obtain rfl := (Option.some.inj h).symm
      have hpos : 0 < total := Nat.pos_of_ne_zero ht
      refine ⟨hpos, ?_, ?_⟩
      · have hmod := Nat.div_add_mod (200 * done + total) (2 * total)
        exact Nat.le.intro hmod
      · have hmod := Nat.div_add_mod (200 * done + total) (2 * total)
        have hlt : (200 * done + total) % (2 * total) < 2 * total :=
          Nat.mod_lt _ (by omega)
        simp only
        rw [Nat.mul_add, Nat.mul_one]
        linarith

/-- C3 witness: the rounding bracket applied to the record parsed from
the round-trip message. -/
theorem c3_subprogress_roundtrip_witness :
    0 < (6095 : Nat) ∧
    2 * 6095 * 8 ≤ 200 * 500 + 6095 ∧
    200 * 500 + 6095 < 2 * 6095 * (8 + 1) :=
  c3_subprogress_roundtrip.2.2 ("UniProt: 500/6,095")
    { label := "UniProt", done := 500, total := 6095, pct := 8 } (by decide)

/-- C4: a counter-shaped message whose groups are unparsable (`NaN`) or
whose total is zero yields no structured record; a message the parser does
not recognise is classified as a milestone (`isProgressUpdate` is false)
and is never dropped by the collapse step. -/
theorem c4_malformed_fails_open :
    (∀ msg lbl g2 g3, matchCounter [] msg.data = some (lbl, g2, g3) →
      (parseIntDec (g2.filter (fun c => c ≠ ',')) = none ∨
       parseIntDec (g3.filter (fun c => c ≠ ',')) = none ∨
       parseIntDec (g3.filter (fun c => c ≠ ',')) = some 0) →
      parseSubProgress msg = none) ∧
    parseSubProgress ("Init: 5/0") = none ∧
    parseSubProgress ("Init: ,/5") = none ∧
    ∀ (e : LogEntry), parseSubProgress e.message = none →
      isProgressUpdate e = false ∧ ∀ l, e ∈ l → e ∈ collapseEntries l := by
  refine ⟨?_, by decide, by decide, ?_⟩
  · intro msg lbl g2 g3 hmc hbad
    unfold parseSubProgress
    rw [hmc]
    dsimp only
    rcases hbad with h2 | h3 | h30
    · rw [h2]
    · rw [h3]
      rcases parseIntDec (g2.filter (fun c => c ≠ ',')) with _ | d <;> rfl
    · rw [h30]
      rcases parseIntDec (g2.filter (fun c => c ≠ ',')) with _ | d <;> simp
  · intro e hnone
    have hmil : isProgressUpdate e = false := by
      simp [isProgressUpdate, hnone]
    exact ⟨hmil, fun l hl => milestone_mem_collapse l e hl hmil⟩

/-- C4 witness: the milestone clause applied to the entry with message
`"Done"` inside a concrete timeline. -/
theorem c4_malformed_fails_open_witness :
    isProgressUpdate (entryOn ("Done")) = false ∧
    entryOn ("Done") ∈ collapseEntries [entryOn ("X: 10/100"), entryOn ("Done")] := by
  have h := c4_malformed_fails_open.2.2.2 (entryOn ("Done")) (by decide)
  exact ⟨h.1, h.2 _ (by decide)⟩

/-- C10: the derived percentage is not clamped to 0–100: the message
`"X: 200/100"` is recognised and yields `pct = 200 > 100`. -/
theorem c10_pct_not_clamped :
    ∃ r, parseSubProgress ("X: 200/100") = some r ∧ 100 < r.pct :=
  ⟨{ label := "X", done := 200, total := 100, pct := 200 }, by decide, by decide⟩

/-- C1: the collapse keeps exactly the entries whose drop test against
their immediate successor fails (a progress update immediately followed by
a same-step progress update is discarded); milestones are always kept; the
three-progress-update scenario collapses to the most recent entry and an
interleaved milestone survives. -/
theorem c1_collapse_rule :
    (∀ l, collapseEntries l = specCollapse l) ∧
    (∀ l (e : LogEntry), e ∈ l → isProgressUpdate e = false →
      e ∈ collapseEntries l) ∧
    collapseEntries
        [entryOn ("X: 10/100"), entryOn ("X: 50/100"), entryOn ("X: 90/100")] =
      [entryOn ("X: 90/100")] ∧
    collapseEntries
        [entryOn ("X: 10/100"), entryOn ("Done"), entryOn ("X: 50/100")] =
      [entryOn ("X: 10/100"), entryOn ("Done"), entryOn ("X: 50/100")] :=
  ⟨collapse_eq_specCollapse, fun l e hl hm => milestone_mem_collapse l e hl hm,
    by decide, by decide⟩

/-- C1 witness: the milestone clause at a concrete entry and list. -/
theorem c1_collapse_rule_witness :
    entryOn ("Done") ∈ collapseEntries [entryOn ("Done")] :=
  c1_collapse_rule.2.1 [entryOn ("Done")] (entryOn ("Done")) (by decide) (by decide)

/-- C5: the collapse is a pure, deterministic function of the entry
sequence — equal inputs give equal outputs, and any relabelling of entry
identity or timing (a map preserving `step` and `message`) commutes with
it, so the result depends on nothing beyond the entries' order, steps and
messages. -/
theorem c5_collapse_deterministic :
    (∀ l₁ l₂ : List LogEntry, l₁ = l₂ →
      collapseEntries l₁ = collapseEntries l₂) ∧
    ∀ (φ : LogEntry → LogEntry), (∀ e, (φ e).step = e.step) →
      (∀ e, (φ e).message = e.message) →
      ∀ l, collapseEntries (List.map φ l) = List.map φ (collapseEntries l) :=
  ⟨fun _ _ h => congrArg _ h, fun φ hstep hmsg => collapse_map φ hstep hmsg⟩

/-- C5 witness: a key/timestamp relabelling of a concrete two-entry
timeline commutes with the collapse. -/
theorem c5_collapse_deterministic_witness :
    collapseEntries (List.map (fun e => { e with key := "k", ts := 9 })
        [entryOn ("X: 10/100"), entryOn ("X: 50/100")]) =
      List.map (fun e => { e with key := "k", ts := 9 })
        (collapseEntries [entryOn ("X: 10/100"), entryOn ("X: 50/100")]) :=
  c5_collapse_deterministic.2 (fun e => { e with key := "k", ts := 9 })
    (fun _ => rfl) (fun _ => rfl)
    [entryOn ("X: 10/100"), entryOn ("X: 50/100")]

/-- C9: the collapse is idempotent; its output never contains an entry
drop-related to its successor (no two adjacent same-step progress
updates); and the last entry of a non-empty input is always retained. -/
theorem c9_collapse_idempotent :
    (∀ l, collapseEntries (collapseEntries l) = collapseEntries l) ∧
    (∀ l, List.Chain' (fun a b => shouldDrop a b = false) (collapseEntries l)) ∧
    (∀ l : List LogEntry, l ≠ [] → (collapseEntries l).getLast? = l.getLast?) :=
  ⟨collapse_idem, collapse_chain, fun l _ => collapse_getLast? l⟩

/-- C9 witness: last-entry retention on a concrete three-entry timeline. -/
theorem c9_collapse_idempotent_witness :
    (collapseEntries
        [entryOn ("X: 10/100"), entryOn ("X: 50/100"), entryOn ("X: 90/100")]).getLast? =
      [entryOn ("X: 10/100"), entryOn ("X: 50/100"), entryOn ("X: 90/100")].getLast? :=
  c9_collapse_idempotent.2.2 _ (by decide)

/-- C2: the merged timeline is the persisted entries in stored order
followed by exactly those live entries whose timestamp strictly exceeds
`T_cutoff`, the timestamp of the last persisted entry, in arrival order;
live entries at or before the cutoff are excluded. -/
theorem c2_merge_timeline (now : Nat) (logs : List OrderLog)
    (events : List ProgressEvent) (lgLast : OrderLog)
    (hlast : logs.getLast? = some lgLast) :
    allEntries now logs events =
      logs.map toLogEntry ++
        ((events.enum.map (fun p => sseToLogEntry now p.2 p.1)).filter
          (fun e => lgLast.created_at < e.ts)) ∧
    (∀ e ∈ (events.enum.map (fun p => sseToLogEntry now p.2 p.1)).filter
        (fun e => lgLast.created_at < e.ts), lgLast.created_at < e.ts) ∧
    (∀ e ∈ events.enum.map (fun p => sseToLogEntry now p.2 p.1),
      lgLast.created_at < e.ts →
      e ∈ (events.enum.map (fun p => sseToLogEntry now p.2 p.1)).filter
        (fun e => lgLast.created_at < e.ts)) := by
  have hcut : tCutoff logs = lgLast.created_at := by
    simp [tCutoff, hlast]
  refine ⟨?_, ?_, ?_⟩
  · unfold allEntries
    dsimp only
    rw [hcut]
  · intro e he
    simpa using (List.mem_filter.mp he).2
  · intro e he hlt
    exact List.mem_filter.mpr ⟨he, by simpa using hlt⟩

/-- A sample persisted row used to instantiate C2. -/
def sampleLog : OrderLog :=
  { id := 1, created_at := 100, stage := "preprocessing", step := "load",
    status := "running", progress_pct := none, message := some ("start") }

/-- Two sample live events used to instantiate C2: one after the cutoff,
one before it. -/
def sampleEvents : List ProgressEvent :=
  [{ stage := "preprocessing", step := "load", status := "running",
     progress_pct := none, message := some ("after"), ts := 150 },
   { stage := "preprocessing", step := "load", status := "running",
     progress_pct := none, message := some ("before"), ts := 50 }]

/-- C2 witness: the merge equation at a concrete history and live tail. -/
theorem c2_merge_timeline_witness :
    allEntries 0 [sampleLog] sampleEvents =
      [sampleLog].map toLogEntry ++
        ((sampleEvents.enum.map (fun p => sseToLogEntry 0 p.2 p.1)).filter
          (fun e => sampleLog.created_at < e.ts)) :=
  (c2_merge_timeline 0 [sampleLog] sampleEvents sampleLog rfl).1

/-- C6: on a live-stream error the client marks itself disconnected,
closes the connection, schedules `connect` for the same order after the
fixed 3000 ms backoff, and the fired timer re-subscribes to that order. -/
theorem c6_stream_error_reconnect (s : SSEClientState) (oid : Nat)
    (hoid : oid ≠ 0) (hq : s.pendingTimers = []) :
    (onError oid s).connected = false ∧
    (onError oid s).openOrder = none ∧
    (onError oid s).pendingTimers = [(reconnectDelayMs, oid)] ∧
    reconnectDelayMs = 3000 ∧
    (fireTimer (onError oid s)).openOrder = some oid := by
  refine ⟨rfl, rfl, by simp [onError, hq], rfl, ?_⟩
  simp [fireTimer, onError, hq, connect, hoid]

/-- A sample connected client used to instantiate C6 and C8. -/
def sampleClient : SSEClientState :=
  { connected := true, openOrder := some 7, pendingTimers := [] }

/-- C6 witness: the reconnect behaviour at a concrete client state. -/
theorem c6_stream_error_reconnect_witness :
    (onError 7 sampleClient).connected = false ∧
    (onError 7 sampleClient).openOrder = none ∧
    (onError 7 sampleClient).pendingTimers = [(reconnectDelayMs, 7)] ∧
    reconnectDelayMs = 3000 ∧
    (fireTimer (onError 7 sampleClient)).openOrder = some 7 :=
  c6_stream_error_reconnect sampleClient 7 (by decide) rfl

/-- C8 counterexample: the reconnect delay is not the configured value for
every configured interval — configuring 5000 still yields the hard-coded
3000 ms delay. -/
theorem c8_delay_not_configured :
    ¬ ∀ cfg : Nat, clientReconnectDelay cfg = cfg := by
  intro h
  have h5 := h 5000
  simp [clientReconnectDelay, reconnectDelayMs] at h5

/-- C8 amended: the reconnect backoff is the constant 3000 ms hard-coded
in `useOrderProgress`; it is independent of any configured value, and
every timer the error handler schedules carries that constant delay. -/
theorem c8_delay_constant :
    (∀ cfg : Nat, clientReconnectDelay cfg = 3000) ∧
    ∀ (s : SSEClientState) (oid d o2 : Nat),
      (d, o2) ∈ (onError oid s).pendingTimers →
      (d, o2) ∈ s.pendingTimers ∨ d = 3000 := by
  refine ⟨fun _ => rfl, ?_⟩
  intro s oid d o2 hmem
  simp [onError, reconnectDelayMs] at hmem
  rcases hmem with h | h
  · exact Or.inl h
  · exact Or.inr h.1

/-- C8 witness: the amended statement applied to a concrete scheduled
timer. -/
theorem c8_delay_constant_witness :
    (3000, 7) ∈ sampleClient.pendingTimers ∨ (3000 : Nat) = 3000 :=
  c8_delay_constant.2 sampleClient 7 3000 7 (by decide)

/-! ## Band lookups used by C7 -/

/-- The band of the preprocessing stage. -/
theorem stageRange_preprocessing :
    stageRange ("preprocessing") = some (0, 33) := by decide

/-- The band of the RAG-enrichment stage. -/
theorem stageRange_rag :
    stageRange ("rag_enrichment") = some (33, 66) := by decide

/-- The band of the report-generation stage. -/
theorem stageRange_report :
    stageRange ("report_generation") = some (66, 100) := by decide

/-- C7: while a stage is active, applying progress updates with
non-decreasing stage-local progress keeps `progress_pct` non-decreasing
and inside the stage's band; the `advance` transition moves to the next
stage and resets `progress_pct` to that stage's band lower bound, never
dipping below the outgoing band. -/
theorem c7_band_monotonicity :
    (∀ s ∈ STAGES, ∀ p q : ℚ, 0 ≤ q → q ≤ p → p ≤ 100 →
      mapToBand s.lo s.hi q ≤ mapToBand s.lo s.hi p ∧
      s.lo ≤ mapToBand s.lo s.hi p ∧ mapToBand s.lo s.hi p ≤ s.hi) ∧
    (∀ (o : OrderSt) (s : StageInfo), s ∈ STAGES → o.current_stage = s.key →
      ∀ p q : ℚ, 0 ≤ q → q ≤ p → p ≤ 100 →
      (applyProgress o q).progress_pct ≤ (applyProgress o p).progress_pct ∧
      (applyProgress o p).current_stage = o.current_stage) ∧
    (∀ x : ℚ,
      advanceOrder (OrderSt.mk ("preprocessing") x) =
        OrderSt.mk ("rag_enrichment") 33 ∧
      advanceOrder (OrderSt.mk ("rag_enrichment") x) =
        OrderSt.mk ("report_generation") 66) ∧
    (∀ x : ℚ, x ≤ 33 →
      x ≤ (advanceOrder (OrderSt.mk ("preprocessing") x)).progress_pct) ∧
    (∀ x : ℚ, x ≤ 66 →
      x ≤ (advanceOrder (OrderSt.mk ("rag_enrichment") x)).progress_pct) := by
  refine ⟨?_, ?_, ?_, ?_, ?_⟩
  · intro s hs p q hq hqp hp
    simp only [STAGES, List.mem_cons, List.not_mem_nil, or_false] at hs
    rcases hs with rfl | rfl | rfl <;>
      (simp only [mapToBand]; refine ⟨by linarith, by linarith, by linarith⟩)
  · intro o s hs hcs p q hq hqp hp
    simp only [STAGES, List.mem_cons, List.not_mem_nil, or_false] at hs
    have hstage : (applyProgress o p).current_stage = o.current_stage := by
      unfold applyProgress
      rcases stageRange o.current_stage with _ | r <;> rfl
    refine ⟨?_, hstage⟩
    rcases hs with rfl | rfl | rfl <;>
      (simp only [applyProgress, hcs, stageRange_preprocessing, stageRange_rag,
        stageRange_report, mapToBand]
       linarith)
  · intro x
    exact ⟨rfl, rfl⟩
  · intro x hx
    exact hx
  · intro x hx
    exact hx

/-- C7 witness: band monotonicity at concrete stage-local progress
values in the RAG-enrichment stage, and a concrete advance reset. -/
theorem c7_band_monotonicity_witness :
    mapToBand (33 : ℚ) 66 10 ≤ mapToBand (33 : ℚ) 66 50 ∧
    (33 : ℚ) ≤ mapToBand (33 : ℚ) 66 50 ∧ mapToBand (33 : ℚ) 66 50 ≤ 66 :=
  c7_band_monotonicity.1
    { key := "rag_enrichment", label := "RAG Enrichment", lo := 33, hi := 66 }
    (by decide) 50 10 (by norm_num) (by norm_num) (by norm_num)

end PTM
